import Mathlib

/-!
Verification of the EnvBench sandboxed-execution engine specification
against the repository source.

The development shallowly embeds:
* `remove_bad_commands` and the batch-evaluation job runner
  (`src/evaluation/main.py`),
* the resume/skip and result-file naming logic of `main`
  (`src/evaluation/main.py`),
* the interactive `AsyncBashExecutor` (its module is absent from the
  source tree; it is modelled from the spec and pinned by the assertions
  of `src/inference/tests/test_async_bash_executor_py.py`).

Machine strings are Lean `String`s; Python dicts are association lists
with in-place update; wall-clock times are modelled as integers since no
claim depends on fractional seconds.
-/

namespace EnvBench

/-! ## Python string helpers

Faithful character-level models of the Python `str` operations used by
the source: `str.strip()` (ASCII whitespace), `str.startswith`,
`str.split("\n")` and `"\n".join`. -/

/-- Whitespace characters stripped by Python `str.strip()` (ASCII subset:
space, tab, newline, carriage return, vertical tab, form feed). -/
def isPyWS (c : Char) : Bool :=
  c == ' ' || c == '\t' || c == '\n' || c == '\r' || c == '\x0b' || c == '\x0c'

/-- Python `str.strip()` on a character list. -/
def stripChars (l : List Char) : List Char :=
  ((l.dropWhile isPyWS).reverse.dropWhile isPyWS).reverse

/-- Python `str.strip()`. -/
def pyStrip (s : String) : String :=
  String.mk (stripChars s.data)

/-- Python `str.split("\n")` on a character list: cut at every newline,
so the result is always nonempty and delimiters produce empty pieces. -/
def splitOnNl : List Char → List (List Char)
  | [] => [[]]
  | c :: rest =>
    match splitOnNl rest with
    | [] => [[c]]
    | h :: t => if c = '\n' then [] :: h :: t else (c :: h) :: t

/-- Python `"\n".join` on character lists. -/
def joinNl (lines : List (List Char)) : List Char :=
  List.intercalate ['\n'] lines

/-- Fuel-driven core of Python `str.replace`: replace non-overlapping
occurrences of `pat` left to right. The fuel starts at the list length,
which suffices because every step consumes at least one character. -/
def replaceCharsAux (pat rep : List Char) : Nat → List Char → List Char
  | 0, l => l
  | _ + 1, [] => []
  | fuel + 1, c :: rest =>
    if pat.isPrefixOf (c :: rest) then
      rep ++ replaceCharsAux pat rep fuel (rest.drop (pat.length - 1))
    else c :: replaceCharsAux pat rep fuel rest

/-- Python `str.replace(pat, rep)` for a nonempty pattern. -/
def pyReplace (s pat rep : String) : String :=
  String.mk (replaceCharsAux pat.data rep.data s.data.length s.data)

/-! ## `remove_bad_commands` (src/evaluation/main.py, lines 42-56) -/

/-- Build-command openings dropped by `remove_bad_commands`, in source
order: the `startswith` arguments of the four `if` tests. -/
def badCommandHeads : List String :=
  ["mvn compile", "./mvnw compile", "mvn test", "./mvnw test",
   "gradle build", "./gradlew build", "gradle test", "./gradlew test"]

/-- Test performed on each stripped line by the loop body of
`remove_bad_commands`: does it start with one of the eight
maven/gradle build or test commands? -/
def isBadCommandLine (line : List Char) : Bool :=
  badCommandHeads.any fun p => p.data.isPrefixOf (stripChars line)

/-- Loop of `remove_bad_commands`: `continue` past bad lines, append the
rest to `res` in order. -/
def removeBadLoop : List (List Char) → List (List Char)
  | [] => []
  | line :: rest =>
    if isBadCommandLine line then removeBadLoop rest
    else line :: removeBadLoop rest

/-- `remove_bad_commands(script)`: split on newlines, drop the
maven/gradle build/test lines, rejoin with newlines. -/
def remove_bad_commands (script : String) : String :=
  String.mk (joinNl (removeBadLoop (splitOnNl script.data)))

/-- Bootstrap-script preparation step of `run_opensource` (lines 92-99):
default the script by language when the caller supplies none, then
filter it through `remove_bad_commands`. The baseline script files are
not in the source tree, so the chosen default's content is a
parameter. -/
def prepareBootstrapScript (defaultScript : String) (provided : Option String) : String :=
  remove_bad_commands (provided.getD defaultScript)

/-! ## Interactive executor output formatting

The module `src/inference/src/async_bash_executor.py` is absent from the
source tree; only its tests (`src/inference/tests/test_async_bash_executor_py.py`)
and callers are present. The formatting below is modelled from the spec
(section 4.2, "Output formatting") with the framing order pinned by the
length assertions of `test_truncating_output` (lines 43-68 of the test
file). -/

/-- Error banner reported by `execute_bash_command` for a command that
ran and returned a nonzero exit code (literal from the spec and from
`test_truncating_output`). -/
def errorBanner : String := "ERROR: Could not execute given command\n"

/-- Truncation marker appended after the first `L` characters, with the
number of skipped lines interpolated (literal from the spec and from
`test_truncating_output`). -/
def skipMarker (n : Nat) : String :=
  "\n\n[... " ++ toString n ++ " lines skipped ...]\n\n"

/-- Count of whole lines dropped by keeping only the first `L`
characters of `output`: the newlines contained in the discarded tail. -/
def linesSkipped (L : Nat) (output : String) : Nat :=
  ((output.data.drop L).filter fun c => c = '\n').length

/-- Modelled from the spec: the truncation step of
`AsyncBashExecutor.execute_bash_command` (module absent from the source
tree). Output of length at most `L = max_num_chars_bash_output` is
returned unchanged; otherwise the first `L` characters are kept and the
skip marker is appended. -/
def truncateOutput (L : Nat) (output : String) : String :=
  if output.length ≤ L then output
  else String.mk (output.data.take L) ++ skipMarker (linesSkipped L output)

/-- Modelled from the spec: the full output framing of
`AsyncBashExecutor.execute_bash_command` (module absent from the source
tree). `failed` holds when the command actually ran (not a timeout) and
exited nonzero. The error branch wraps the truncated output in the
banner and a trailing newline: `test_truncating_output` asserts the
failure framing has length
`L + len(banner) + len(skipMarker 0) + len("\n")`, which forces the
banner to stay outside the truncation window. -/
def formatCommandOutput (L : Nat) (output : String) (failed : Bool) : String :=
  if failed then errorBanner ++ truncateOutput L output ++ "\n"
  else truncateOutput L output

/-- Output framing exactly as claim C1 (and spec section 4.2) words it:
on failure the banner is prepended to the full output *before* the
truncation is applied. Kept only to compare against
`formatCommandOutput`. -/
def formatCommandOutputClaimed (L : Nat) (output : String) (failed : Bool) : String :=
  if failed then truncateOutput L (errorBanner ++ output) ++ "\n"
  else truncateOutput L output

/-! ## SessionState and the interactive executor step

Modelled from the spec (sections 3 and 4.2): the executor replays the
session snapshot (exported variables, cwd) at the head of every exec
call, runs the command, and captures a fresh snapshot regardless of the
command's own exit code. Commands are a small shell language rich
enough for the behaviors the claims quantify over: exporting variables,
reading them back, changing and printing the cwd, exiting with a code,
sleeping (to model wall-clock duration), and reading/writing files on
the bind mount or on container-internal paths. -/

/-- Ordered string-to-string map with in-place update, as used for both
exported environment variables and toy file systems. -/
def assocSet : List (String × String) → String → String → List (String × String)
  | [], k, v => [(k, v)]
  | (k', v') :: rest, k, v =>
    if k' = k then (k, v) :: rest else (k', v') :: assocSet rest k v

/-- Lookup in an ordered string-to-string map. -/
def assocGet : List (String × String) → String → Option String
  | [], _ => none
  | (k', v') :: rest, k => if k' = k then some v' else assocGet rest k

/-- Session snapshot surviving across independent exec invocations and
container restarts: exported environment variables and the working
directory. -/
structure SessionState where
  env : List (String × String)
  cwd : String
deriving DecidableEq

/-- Toy shell command language executed through the session. -/
inductive BashCmd
  | exportVar (name value : String)
  | echoVar (name : String)
  | cd (dir : String)
  | pwd
  | exitCmd (code : Nat)
  | sleep (secs : Nat)
  | readMount (file : String)
  | writeMount (file content : String)
  | writeTmp (file content : String)
deriving DecidableEq

/-- Wall-clock duration of a command in the toy model: only `sleep`
takes time. -/
def BashCmd.duration : BashCmd → Nat
  | .sleep secs => secs
  | _ => 0

/-- Modelled from the spec: effect of one command on the session
snapshot, the bind-mounted repository files and the container-internal
files, producing combined output and an exit code. `exit` terminates
the shell with its code but leaves the captured snapshot at the state
reached before it (the spec keeps the last successfully captured
snapshot). -/
def runBashCmd (st : SessionState) (mountFs tmpFs : List (String × String)) :
    BashCmd → String × Int × SessionState × List (String × String) × List (String × String)
  | .exportVar n v => ("", 0, { st with env := assocSet st.env n v }, mountFs, tmpFs)
  | .echoVar n => ((assocGet st.env n).getD "", 0, st, mountFs, tmpFs)
  | .cd d => ("", 0, { st with cwd := d }, mountFs, tmpFs)
  | .pwd => (st.cwd, 0, st, mountFs, tmpFs)
  | .exitCmd k => ("", (k : Int), st, mountFs, tmpFs)
  | .sleep _ => ("", 0, st, mountFs, tmpFs)
  | .readMount f =>
    match assocGet mountFs f with
    | some content => (content, 0, st, mountFs, tmpFs)
    | none => ("", 1, st, mountFs, tmpFs)
  | .writeMount f c => ("", 0, st, assocSet mountFs f c, tmpFs)
  | .writeTmp f c => ("", 0, st, mountFs, assocSet tmpFs f c)

/-- Executor-owned state: the session snapshot, the bind-mounted
repository files (surviving a container restart) and the
container-internal files (lost on restart). -/
structure ExecutorState where
  session : SessionState
  mountFs : List (String × String)
  tmpFs : List (String × String)
deriving DecidableEq

/-- Error message returned for a timed-out command (modelled; the spec
only fixes that an error message is returned together with a null exit
code). -/
def timeoutMessage : String := "ERROR: bash command timed out"

/-- Whether a command of duration `d` overruns `bash_timeout`; with no
timeout configured nothing ever times out. -/
def exceedsTimeout (bashTimeout : Option Nat) (d : Nat) : Bool :=
  match bashTimeout with
  | some t => t < d
  | none => false

/-- Modelled from the spec: `AsyncBashExecutor.execute_bash_command`
(module absent from the source tree), spec section 4.2 steps 2-5. When
the command's duration exceeds `bash_timeout` (when one is set), the
exec call is cancelled: exit code `none` is returned, the container is
restarted (container-internal files reset), and the last successfully
captured session snapshot and the bind-mounted files are kept.
Otherwise the command runs, and the snapshot is updated regardless of
the command's own exit code. -/
def execute_bash_command (bashTimeout : Option Nat) (es : ExecutorState) (c : BashCmd) :
    (String × Option Int) × ExecutorState :=
  if exceedsTimeout bashTimeout c.duration then
    ((timeoutMessage, none), { es with tmpFs := [] })
  else
    let (out, code, st, mfs, tfs) := runBashCmd es.session es.mountFs es.tmpFs c
    ((out, some code), ⟨st, mfs, tfs⟩)

/-- Run a list of commands sequentially through the session (the order
the per-session mutex enforces), collecting each command's output and
exit code. -/
def runSession (bashTimeout : Option Nat) (es : ExecutorState) :
    List BashCmd → List (String × Option Int) × ExecutorState
  | [] => ([], es)
  | c :: rest =>
    let (r, es') := execute_bash_command bashTimeout es c
    let (rs, esFinal) := runSession bashTimeout es' rest
    (r :: rs, esFinal)

/-! ## Command serialization (claim C4)

Modelled from the spec (sections 4.2 step 1 and 5) and from
`test_concurrent_execution`: N concurrently issued
`execute_bash_command` calls contend for the session's single-command
mutex; each, once it holds the mutex, runs the lock-file probe of the
test (fail if `/tmp/test.lock` exists; otherwise create it, sleep,
remove it, report success). The interleaving of the calls is an
explicit transition system; the container's shared `/tmp/test.lock` is
the boolean `lockFile`. -/

/-- Progress of one concurrently issued command: waiting for the mutex,
holding the mutex before probing the lock file, holding the mutex with
the lock file created, or finished with an exit code and an output. -/
inductive TaskPhase
  | pending
  | acquired
  | locked
  | finished (exitCode : Nat) (output : String)
deriving DecidableEq

/-- Output the i-th concurrent command echoes on success in
`test_concurrent_execution`. -/
def cmdDoneOutput (i : Nat) : String := "cmd" ++ toString i ++ " done"

/-- Output echoed when a command observes another command's lock file
in `test_concurrent_execution`. -/
def racingOutput : String := "Lock file exists, commands are racing!"

/-- Global state of one session with `n` concurrently issued commands:
the mutex owner, the shared lock file, and each task's phase. -/
structure LockSys (n : Nat) where
  mutex : Option (Fin n)
  lockFile : Bool
  tasks : Fin n → TaskPhase

/-- Initial state: mutex free, no lock file, all commands issued but
waiting. -/
def LockSys.init (n : Nat) : LockSys n :=
  { mutex := none, lockFile := false, tasks := fun _ => .pending }

/-- Whether task `i` is currently executing against the container (it
holds the mutex and its exec call is in flight). -/
def LockSys.executing {n : Nat} (s : LockSys n) (i : Fin n) : Prop :=
  s.tasks i = .acquired ∨ s.tasks i = .locked

/-- Pointwise update of one task's phase. -/
def setTask {n : Nat} (tasks : Fin n → TaskPhase) (i : Fin n) (ph : TaskPhase) :
    Fin n → TaskPhase :=
  fun j => if j = i then ph else tasks j

/-- One interleaving step of the session: a waiting task acquires the
free mutex; a task holding the mutex probes the lock file (failing if
it exists, creating it otherwise); a task that created the lock file
removes it, echoes its completion message and releases the mutex. -/
inductive LockStep {n : Nat} : LockSys n → LockSys n → Prop
  | acquire (s : LockSys n) (i : Fin n) :
      s.mutex = none → s.tasks i = .pending →
      LockStep s { s with mutex := some i, tasks := setTask s.tasks i .acquired }
  | probeRace (s : LockSys n) (i : Fin n) :
      s.mutex = some i → s.tasks i = .acquired → s.lockFile = true →
      LockStep s { s with mutex := none,
                          tasks := setTask s.tasks i (.finished 1 racingOutput) }
  | probeOk (s : LockSys n) (i : Fin n) :
      s.mutex = some i → s.tasks i = .acquired → s.lockFile = false →
      LockStep s { s with lockFile := true, tasks := setTask s.tasks i .locked }
  | finish (s : LockSys n) (i : Fin n) :
      s.mutex = some i → s.tasks i = .locked →
      LockStep s { s with mutex := none, lockFile := false,
                          tasks := setTask s.tasks i (.finished 0 (cmdDoneOutput i.val)) }

/-- States reachable from the initial state by interleaving steps. -/
inductive LockReachable {n : Nat} : LockSys n → Prop
  | init : LockReachable (LockSys.init n)
  | step {s s' : LockSys n} : LockReachable s → LockStep s s' → LockReachable s'

/-- Inductive invariant of the serialized session: every in-flight task
owns the mutex, the lock file exists exactly while its creator holds
the mutex, and no task ever finishes by observing a foreign lock
file. -/
def LockInv {n : Nat} (s : LockSys n) : Prop :=
  (∀ i : Fin n, (s.tasks i = .acquired ∨ s.tasks i = .locked) → s.mutex = some i) ∧
  (s.lockFile = true ↔ ∃ i : Fin n, s.tasks i = .locked) ∧
  (∀ i : Fin n, ∀ k : Nat, ∀ out : String,
    s.tasks i = .finished k out → k = 0 ∧ out = cmdDoneOutput i.val)

/-! ## Batch evaluation runner (src/evaluation/main.py)

Shallow embedding of `run_opensource` (lines 74-279), `run_batch_async`
(lines 282-303) and the resume/skip logic of `main` (lines 347-362).
The outside world (repository download, the Docker engine, the
in-container result file) is an oracle carried in `JobEnv`; the
function's visible effects (the final `json_result` dict, whether its
file was written, container deletions, checkout release, raised
exceptions) are collected in `JobTrace`. -/

/-- JSON-ish values stored in the `json_result` dict. -/
inductive JVal
  | jNull
  | jInt (z : Int)
  | jStr (s : String)
deriving DecidableEq

/-- Python dict with string keys: in-place update keeping the original
key position, appending new keys at the end. -/
def dictSet : List (String × JVal) → String → JVal → List (String × JVal)
  | [], k, v => [(k, v)]
  | (k', v') :: rest, k, v =>
    if k' = k then (k, v) :: rest else (k', v') :: dictSet rest k v

/-- Lookup in a Python-dict model. -/
def dictGet : List (String × JVal) → String → Option JVal
  | [], _ => none
  | (k', v') :: rest, k => if k' = k then some v' else dictGet rest k

/-- Value the merge loop `for key in build_results: json_result[key] =
build_results[key]` leaves for a key: its last value in the parsed
file, if any. -/
def lastVal : List (String × JVal) → String → Option JVal
  | [], _ => none
  | (k', v) :: rest, k =>
    match lastVal rest k with
    | some w => some w
    | none => if k' = k then some v else none

/-- Merge loop over the parsed result file, in file order. -/
def mergeResults (record : List (String × JVal)) (kvs : List (String × JVal)) :
    List (String × JVal) :=
  kvs.foldl (fun acc kv => dictSet acc kv.1 kv.2) record

/-- Exit-code sentinels of the taxonomy. The hydra configuration files
binding `cfg.exit_codes` are not in the source tree; the numeric values
are those of `EXIT_CODE_MAP` in
`src/env_setup_utils/analysis/analysis_utils.py`, which decodes the
records this runner produces. -/
def timeoutExitCode : Int := -127

/-- Sentinel for an unexpected exception inside the container phase. -/
def unknownFailureExitCode : Int := -999

/-- Sentinel for a Docker engine error. -/
def dockerFailureExitCode : Int := -888

/-- Sentinel for a container-creation failure. -/
def createContainerFailureExitCode : Int := -777

/-- Sentinel for a repository download failure. -/
def downloadFailureExitCode : Int := -666

/-- Sentinel for a script failure. -/
def scriptFailureExitCode : Int := -555

/-- All negative sentinels of the taxonomy, in the order of
`EXIT_CODE_MAP`. -/
def taxonomySentinels : List Int :=
  [timeoutExitCode, unknownFailureExitCode, dockerFailureExitCode,
   createContainerFailureExitCode, downloadFailureExitCode, scriptFailureExitCode]

/-- Languages accepted by `run_opensource` (keys of
`build_script_functions`, lines 113-117). -/
def supportedLanguages : List String := ["jvm", "python", "repo2run"]

/-- Outcome of the container phase of one job, as decided by the
outside world: the user script completed with a status code and logs,
the global `container_timeout` fired (`asyncio.TimeoutError`), the
Docker engine failed (`DockerError`), or some other exception arose. -/
inductive RunOutcome
  | completed (statusCode : Int) (logs : String)
  | timedOut
  | dockerError (message : String)
  | unexpectedError (message : String)
deriving DecidableEq

/-- Oracle for everything external to one `run_opensource` call. -/
structure JobEnv where
  repoName : String
  commitSha : String
  language : String
  bootstrapScript : Option String
  defaultScript : String
  downloadOk : Bool
  containerCreated : Bool
  outcome : RunOutcome
  containerTimeout : Int
  resultsFile : Option (List (String × JVal))
  repo2runFailedCollectors : Nat
  elapsed : Int
deriving DecidableEq

/-- Whether the `container` local was set before the `finally` block
ran: always for a completed wait, and as the oracle says for the error
branches (the exception may have struck before or after
`containers.create` returned). -/
def containerWasCreated (e : JobEnv) : Bool :=
  match e.outcome with
  | .completed _ _ => true
  | _ => e.containerCreated

/-- Visible effects of one `run_opensource` call. -/
structure JobTrace where
  record : List (String × JVal)
  recordWritten : Option String
  containerCreated : Bool
  containerDeletes : Nat
  repoCleared : Bool
  timeRecorded : Bool
  raisedError : Option String
deriving DecidableEq

/-- Initial `json_result` dict (lines 81-88). -/
def initRecord (repoName commitSha : String) : List (String × JVal) :=
  [("exit_code", .jNull), ("execution_time", .jInt 0), ("repo_name", .jStr repoName),
   ("commit_sha", .jStr commitSha), ("container_logs", .jNull), ("issues_count", .jInt 0)]

/-- Name of the per-job result file (lines 267-271):
`f"{repo_name.replace('/', '__')}.json"` — the revision does not
appear. The `commitSha` parameter is accepted to expose the job
identity the claims quantify over. -/
def resultFileNameForJob (repoName _commitSha : String) : String :=
  pyReplace repoName "/" "__" ++ ".json"

/-- Synthetic container logs recorded on a global timeout (line 237). -/
def timeoutLogs (containerTimeout : Int) : String :=
  "Container execution timeout after " ++ toString containerTimeout ++ " seconds"

/-- Record contents after the try/except arms of `run_opensource`
(lines 174-245): status code and logs on completion followed by the
best-effort merge of the result file (and the repo2run recount), or a
taxonomy sentinel and branch-specific logs. -/
def recordAfterContainerPhase (e : JobEnv) : List (String × JVal) :=
  let r0 := initRecord e.repoName e.commitSha
  match e.outcome with
  | .completed statusCode logs =>
    let r := dictSet (dictSet r0 "exit_code" (.jInt statusCode)) "container_logs" (.jStr logs)
    match e.resultsFile with
    | some kvs =>
      let merged := mergeResults r kvs
      if e.language = "repo2run" then
        dictSet merged "issues_count" (.jInt e.repo2runFailedCollectors)
      else merged
    | none => r
  | .timedOut =>
    dictSet (dictSet r0 "exit_code" (.jInt timeoutExitCode)) "container_logs"
      (.jStr (timeoutLogs e.containerTimeout))
  | .dockerError msg =>
    dictSet (dictSet r0 "exit_code" (.jInt dockerFailureExitCode)) "container_logs" (.jStr msg)
  | .unexpectedError msg =>
    dictSet (dictSet r0 "exit_code" (.jInt unknownFailureExitCode)) "container_logs"
      (.jStr ("An unknown exception occurred: " ++ msg))

/-- Shallow embedding of `run_opensource` (lines 74-279). Branches, in
source order: a failed download assigns `DOWNLOAD_FAILURE` and returns
the dict to a caller that discards it — no file is written, no
container exists, the checkout is not released and no execution time is
recorded; an unsupported language raises `ValueError` before the
try-block, leaving the downloaded checkout in place; otherwise the
container phase runs, the `finally` block deletes the container (once,
best-effort) if it was created and records the wall-clock execution
time, the checkout is released and the record is written to the per-job
file. -/
def run_opensource (e : JobEnv) : JobTrace :=
  let r0 := initRecord e.repoName e.commitSha
  if e.downloadOk = false then
    { record := dictSet r0 "exit_code" (.jInt downloadFailureExitCode),
      recordWritten := none, containerCreated := false, containerDeletes := 0,
      repoCleared := false, timeRecorded := false, raisedError := none }
  else if (supportedLanguages.contains e.language) = false then
    { record := r0, recordWritten := none, containerCreated := false, containerDeletes := 0,
      repoCleared := false, timeRecorded := false,
      raisedError := some ("Unsupported language: " ++ e.language) }
  else
    let r1 := recordAfterContainerPhase e
    let r2 := dictSet r1 "execution_time" (.jInt e.elapsed)
    { record := r2,
      recordWritten := some (resultFileNameForJob e.repoName e.commitSha),
      containerCreated := containerWasCreated e,
      containerDeletes := if containerWasCreated e then 1 else 0,
      repoCleared := true, timeRecorded := true, raisedError := none }

/-- Shallow embedding of `run_batch_async` (lines 282-303): a
semaphore-bounded `asyncio.gather(..., return_exceptions=True)` over
one `run_opensource` task per job. In the embedding the scheduling
disappears: each job's trace is a function of its own oracle alone, and
a raised exception is absorbed by `gather` into that job's slot. -/
def run_batch_async (envs : List JobEnv) : List JobTrace :=
  envs.map run_opensource

/-! ## Resume/skip logic of `main` (src/evaluation/main.py, lines 347-362) -/

/-- Repository name recovered from a result file name:
`file[: -len(".json")].replace("__", "/")` (line 352). -/
def processedRepoName (file : String) : String :=
  pyReplace (file.dropRight ".json".length) "__" "/"

/-- Whether a submitted job is dropped by the no-rewrite resume filter
(lines 350-356): its repository name matches the name derived from some
existing result file. The revision plays no part. -/
def skipJob (existingFiles : List String) (repoName : String) : Bool :=
  (existingFiles.map processedRepoName).contains repoName

/-- Jobs remaining after the resume filter, each job being a
`(repository, revision)` pair. -/
def remainingJobs (existingFiles : List String) (jobs : List (String × String)) :
    List (String × String) :=
  jobs.filter fun job => !skipJob existingFiles job.1

/-! ## Helper lemmas -/

theorem removeBadLoop_eq_filter (lines : List (List Char)) :
    removeBadLoop lines = lines.filter fun line => !isBadCommandLine line := by
  induction lines with
  | nil => rfl
  | cons hd tl ih =>
    by_cases h : isBadCommandLine hd
    · simp [removeBadLoop, h, ih]
    · simp [removeBadLoop, h, ih]

theorem assocGet_assocSet_self (e : List (String × String)) (k v : String) :
    assocGet (assocSet e k v) k = some v := by
  induction e with
  | nil => simp [assocSet, assocGet]
  | cons hd tl ih =>
    by_cases h : hd.1 = k
    · simp [assocSet, assocGet, h]
    · simp [assocSet, assocGet, h, ih]

theorem assocGet_assocSet_ne (e : List (String × String)) (k' k v : String) (h : k' ≠ k) :
    assocGet (assocSet e k' v) k = assocGet e k := by
  induction e with
  | nil => simp [assocSet, assocGet, h]
  | cons hd tl ih =>
    by_cases h2 : hd.1 = k'
    · simp [assocSet, assocGet, h2, h]
    · by_cases h3 : hd.1 = k
      · simp [assocSet, assocGet, h2, h3, Ne.symm h]
      · simp [assocSet, assocGet, h2, h3, ih]

theorem dictGet_dictSet_self (d : List (String × JVal)) (k : String) (v : JVal) :
    dictGet (dictSet d k v) k = some v := by
  induction d with
  | nil => simp [dictSet, dictGet]
  | cons hd tl ih =>
    by_cases h : hd.1 = k
    · simp [dictSet, dictGet, h]
    · simp [dictSet, dictGet, h, ih]

theorem dictGet_dictSet_ne (d : List (String × JVal)) (k' k : String) (v : JVal)
    (h : k' ≠ k) : dictGet (dictSet d k' v) k = dictGet d k := by
  induction d with
  | nil => simp [dictSet, dictGet, h]
  | cons hd tl ih =>
    by_cases h2 : hd.1 = k'
    · simp [dictSet, dictGet, h2, h]
    · by_cases h3 : hd.1 = k
      · simp [dictSet, dictGet, h2, h3, Ne.symm h]
      · simp [dictSet, dictGet, h2, h3, ih]

theorem dictGet_mergeResults (kvs : List (String × JVal)) (r : List (String × JVal))
    (k : String) :
    dictGet (mergeResults r kvs) k = (lastVal kvs k).or (dictGet r k) := by
  induction kvs generalizing r with
  | nil => rfl
  | cons hd tl ih =>
    obtain ⟨k', v⟩ := hd
    show dictGet (mergeResults (dictSet r k' v) tl) k = _
    rw [ih]
    by_cases h : k' = k
    · subst h
      rw [dictGet_dictSet_self]
      cases hlast : lastVal tl k' <;> simp [lastVal, hlast, Option.or]
    · rw [dictGet_dictSet_ne _ _ _ _ h]
      cases hlast : lastVal tl k <;> simp [lastVal, hlast, h, Option.or]

theorem truncateOutput_short (L : Nat) (out : String) (h : out.length ≤ L) :
    truncateOutput L out = out := by
  rw [truncateOutput, if_pos h]

theorem truncateOutput_long (L : Nat) (out : String) (h : L < out.length) :
    truncateOutput L out
      = String.mk (out.data.take L) ++ skipMarker (linesSkipped L out) := by
  rw [truncateOutput, if_neg (not_le.mpr h)]

theorem truncateOutput_long_length (L : Nat) (out : String) (h : L < out.length) :
    (truncateOutput L out).length = L + (skipMarker (linesSkipped L out)).length := by
  have h1 : (String.mk (out.data.take L)).length = L := by
    show (out.data.take L).length = L
    exact List.length_take_of_le h.le
  rw [truncateOutput_long L out h, String.length_append, h1]

theorem setTask_self {n : Nat} (tasks : Fin n → TaskPhase) (i : Fin n) (ph : TaskPhase) :
    setTask tasks i ph i = ph := by
  simp [setTask]

theorem setTask_ne {n : Nat} (tasks : Fin n → TaskPhase) (i j : Fin n) (ph : TaskPhase)
    (h : j ≠ i) : setTask tasks i ph j = tasks j := by
  simp [setTask, h]

theorem lockInv_init (n : Nat) : LockInv (LockSys.init n) := by
  refine ⟨?_, ?_, ?_⟩
  · intro i h
    rcases h with h | h <;> simp [LockSys.init] at h
  · constructor
    · intro h
      simp [LockSys.init] at h
    · rintro ⟨i, hi⟩
      simp [LockSys.init] at hi
  · intro i k out h
    simp [LockSys.init] at h

theorem lockInv_step {n : Nat} {s s' : LockSys n} (inv : LockInv s) (st : LockStep s s') :
    LockInv s' := by
  obtain ⟨inv1, inv2, inv3⟩ := inv
  cases st with
  | acquire i hmu hpend =>
    refine ⟨?_, ?_, ?_⟩
    · intro j hj
      simp only [setTask] at hj ⊢
      by_cases hij : j = i
      · simp [hij]
      · simp only [if_neg hij] at hj
        have h0 := inv1 j hj
        rw [hmu] at h0
        exact Option.noConfusion h0
    · simp only [setTask]
      constructor
      · intro hl
        obtain ⟨j, hj⟩ := inv2.mp hl
        have hij : j ≠ i := by
          intro e; subst e; rw [hpend] at hj; exact TaskPhase.noConfusion hj
        exact ⟨j, by simp [if_neg hij, hj]⟩
      · rintro ⟨j, hj⟩
        apply inv2.mpr
        by_cases hij : j = i
        · simp [hij] at hj
        · simp only [if_neg hij] at hj
          exact ⟨j, hj⟩
    · intro j k out hj
      simp only [setTask] at hj
      by_cases hij : j = i
      · simp [hij] at hj
      · simp only [if_neg hij] at hj
        exact inv3 j k out hj
  | probeRace i hmu hacq hlock =>
    exfalso
    obtain ⟨j, hj⟩ := inv2.mp hlock
    have hj' := inv1 j (Or.inr hj)
    rw [hmu] at hj'
    have hij : j = i := by
      injection hj' with e
      exact e.symm
    subst hij
    rw [hacq] at hj
    exact TaskPhase.noConfusion hj
  | probeOk i hmu hacq hlock =>
    refine ⟨?_, ?_, ?_⟩
    · intro j hj
      simp only [setTask] at hj ⊢
      by_cases hij : j = i
      · rw [hij]; exact hmu
      · simp only [if_neg hij] at hj
        exact inv1 j hj
    · simp only [setTask]
      constructor
      · intro _
        exact ⟨i, by simp⟩
      · intro _
        trivial
    · intro j k out hj
      simp only [setTask] at hj
      by_cases hij : j = i
      · simp [hij] at hj
      · simp only [if_neg hij] at hj
        exact inv3 j k out hj
  | finish i hmu hlocked =>
    refine ⟨?_, ?_, ?_⟩
    · intro j hj
      exfalso
      simp only [setTask] at hj
      by_cases hij : j = i
      · simp [hij] at hj
      · simp only [if_neg hij] at hj
        have h0 := inv1 j hj
        rw [hmu] at h0
        injection h0 with e
        exact hij e.symm
    · constructor
      · intro h
        exact absurd h (by simp)
      · rintro ⟨j, hj⟩
        exfalso
        simp only [setTask] at hj
        by_cases hij : j = i
        · simp [hij] at hj
        · simp only [if_neg hij] at hj
          have h0 := inv1 j (Or.inr hj)
          rw [hmu] at h0
          injection h0 with e
          exact hij e.symm
    · intro j k out hj
      simp only [setTask] at hj
      by_cases hij : j = i
      · simp only [if_pos hij] at hj
        injection hj with e1 e2
        rw [hij]
        exact ⟨e1.symm, e2.symm⟩
      · simp only [if_neg hij] at hj
        exact inv3 j k out hj

theorem lockInv_reachable {n : Nat} {s : LockSys n} (h : LockReachable s) : LockInv s := by
  induction h with
  | init => exact lockInv_init n
  | step _ hst ih => exact lockInv_step ih hst

/-! ## Claim theorems -/

/-- C10: before a batch job runs, every bootstrap script — caller-supplied
or the language default — passes through `remove_bad_commands`, which drops
exactly those lines whose whitespace-stripped text starts with one of
"mvn compile", "./mvnw compile", "mvn test", "./mvnw test", "gradle build",
"./gradlew build", "gradle test", "./gradlew test", and preserves every
other line unchanged and in its original order. -/
theorem C10_bootstrap_filter_drops_exact_bad_lines
    (defaultScript : String) (provided : Option String)
    (lines : List (List Char)) (l : List Char) :
    prepareBootstrapScript defaultScript provided
      = String.mk (joinNl ((splitOnNl (provided.getD defaultScript).data).filter
          fun line => !isBadCommandLine line))
    ∧ removeBadLoop lines = lines.filter (fun line => !isBadCommandLine line)
    ∧ (removeBadLoop lines).Sublist lines
    ∧ (isBadCommandLine l = true ↔
        ∃ p ∈ badCommandHeads, p.data.isPrefixOf (stripChars l) = true) := by
  refine ⟨?_, removeBadLoop_eq_filter lines, ?_, ?_⟩
  · show String.mk (joinNl (removeBadLoop (splitOnNl (provided.getD defaultScript).data))) = _
    rw [removeBadLoop_eq_filter]
  · rw [removeBadLoop_eq_filter]
    exact List.filter_sublist lines
  · simp [isBadCommandLine, List.any_eq_true]

/-- C1 counterexample: the claim (and spec section 4.2) places the error
banner on the full output *before* truncation, which at the inputs of
`test_truncating_output` (`max_num_chars_bash_output = 2`, a long
single-line output, exit code 123) would produce a failure framing whose
length differs from the test's asserted
`L + len(banner) + len(marker) + len("\n")`; the framing satisfying the
test keeps the banner outside the truncation. -/
theorem C1_counterexample_banner_before_truncation :
    formatCommandOutputClaimed 2 "blahblah" true ≠ formatCommandOutput 2 "blahblah" true
    ∧ (formatCommandOutput 2 "blahblah" true).length
        = 2 + errorBanner.length + (skipMarker 0).length + 1
    ∧ (formatCommandOutputClaimed 2 "blahblah" true).length
        ≠ 2 + errorBanner.length + (skipMarker 0).length + 1 := by
  refine ⟨?_, ?_, ?_⟩ <;> decide

/-- C1 (amended): truncation of `execute_bash_command` output is bit-exact:
output of length at most `L` is returned unchanged; longer output becomes
its first `L` characters followed by the literal skip marker (with `n`
the count of whole lines dropped, `n = 0` valid), so success framing has
length `L + len(marker)`; when the command ran and exited nonzero, the
error banner and a trailing newline are wrapped around the *truncated*
output, so failure framing has length `L + len(banner) + len(marker) + 1`. -/
theorem C1_output_truncation_framing (L : Nat) (out : String) :
    (out.length ≤ L → formatCommandOutput L out false = out)
    ∧ (L < out.length →
        formatCommandOutput L out false
          = String.mk (out.data.take L) ++ skipMarker (linesSkipped L out)
        ∧ (formatCommandOutput L out false).length
            = L + (skipMarker (linesSkipped L out)).length)
    ∧ formatCommandOutput L out true = errorBanner ++ truncateOutput L out ++ "\n"
    ∧ (L < out.length →
        (formatCommandOutput L out true).length
          = L + errorBanner.length + (skipMarker (linesSkipped L out)).length + 1) := by
  refine ⟨?_, ?_, rfl, ?_⟩
  · intro h
    show truncateOutput L out = out
    exact truncateOutput_short L out h
  · intro h
    exact ⟨truncateOutput_long L out h, truncateOutput_long_length L out h⟩
  · intro h
    show (errorBanner ++ truncateOutput L out ++ "\n").length = _
    rw [String.length_append, String.length_append, truncateOutput_long_length L out h]
    have hnl : ("\n" : String).length = 1 := rfl
    rw [hnl]
    omega

/-- C1 witness: the amended framing evaluated at concrete inputs — a short
output returned unchanged, and the test's `L = 2` configuration on a long
single-line output for both success and failure framing. -/
theorem C1_output_truncation_framing_witness :
    ("ab".length ≤ 5 ∧ formatCommandOutput 5 "ab" false = "ab")
    ∧ (2 < "blahblah".length
        ∧ (formatCommandOutput 2 "blahblah" false).length
            = 2 + (skipMarker (linesSkipped 2 "blahblah")).length
        ∧ (formatCommandOutput 2 "blahblah" true).length
            = 2 + errorBanner.length + (skipMarker (linesSkipped 2 "blahblah")).length + 1) :=
  ⟨⟨by decide, (C1_output_truncation_framing 5 "ab").1 (by decide)⟩,
   ⟨by decide, ((C1_output_truncation_framing 2 "blahblah").2.1 (by decide)).2,
    (C1_output_truncation_framing 2 "blahblah").2.2.2 (by decide)⟩⟩

/-- C2: session-state continuity is independent of exit codes: variables
exported and the cwd set by earlier commands remain visible after an
intervening command that terminated with an arbitrary (possibly nonzero)
exit code, because the snapshot is updated after every command; moreover
a plain `exit k` leaves the whole captured snapshot intact and an
`export` updates exactly the environment of the snapshot. -/
theorem C2_session_state_survives_nonzero_exit
    (bt : Option Nat) (es : ExecutorState) (name v dir : String) (k : Nat) :
    (runSession bt es
        [.exportVar name v, .cd dir, .exitCmd k, .echoVar name, .pwd]).1
      = [("", some 0), ("", some 0), ("", some (k : Int)), (v, some 0), (dir, some 0)]
    ∧ (execute_bash_command bt es (.exitCmd k)).2.session = es.session
    ∧ (execute_bash_command bt es (.exportVar name v)).2.session.env
        = assocSet es.session.env name v := by
  have hz0 : exceedsTimeout bt 0 = false := by
    cases bt <;> simp [exceedsTimeout]
  refine ⟨?_, ?_, ?_⟩
  · simp [runSession, execute_bash_command, runBashCmd, BashCmd.duration, hz0,
      assocGet_assocSet_self]
  · simp [execute_bash_command, runBashCmd, BashCmd.duration, hz0]
  · simp [execute_bash_command, runBashCmd, BashCmd.duration, hz0]

/-- C3: a command exceeding `bash_timeout` makes `execute_bash_command`
return exit code `none` (the embedding is a total function, so nothing
escapes the session boundary), restarts the container — resetting
container-internal files — while keeping the last captured session
snapshot and the bind-mounted files; the next command within the timeout
executes normally from that kept snapshot, and reading a bind-mounted
file after the timeout sees its content from before the timeout. -/
theorem C3_timeout_recovery (t : Nat) (es : ExecutorState) (c next : BashCmd)
    (hc : t < c.duration) (hnext : next.duration ≤ t) :
    execute_bash_command (some t) es c
        = ((timeoutMessage, none), ⟨es.session, es.mountFs, []⟩)
    ∧ (execute_bash_command (some t) (execute_bash_command (some t) es c).2 next).1
        = ((runBashCmd es.session es.mountFs [] next).1,
           some (runBashCmd es.session es.mountFs [] next).2.1)
    ∧ (∀ f content, assocGet es.mountFs f = some content →
        (execute_bash_command (some t) (execute_bash_command (some t) es c).2
            (.readMount f)).1 = (content, some 0)) := by
  have h1 : exceedsTimeout (some t) c.duration = true := by
    simp [exceedsTimeout]
    exact hc
  have h2 : exceedsTimeout (some t) next.duration = false := by
    simp [exceedsTimeout]
    omega
  have hstep : execute_bash_command (some t) es c
      = ((timeoutMessage, none), ⟨es.session, es.mountFs, []⟩) := by
    simp [execute_bash_command, h1]
  refine ⟨hstep, ?_, ?_⟩
  · rw [hstep]
    rcases hrb : runBashCmd es.session es.mountFs [] next with ⟨out, code, st, mfs, tfs⟩
    simp [execute_bash_command, h2, hrb]
  · intro f content hf
    rw [hstep]
    simp [execute_bash_command, exceedsTimeout, runBashCmd, BashCmd.duration, hf]

/-- C3 witness: a `sleep 6` against a 5-second `bash_timeout` on a
concrete executor state times out with exit code `none`; the following
`sleep 3` completes normally, and the bind-mounted file `f` still holds
its pre-timeout content. -/
theorem C3_timeout_recovery_witness :
    (5 < (BashCmd.sleep 6).duration ∧ (BashCmd.sleep 3).duration ≤ 5)
    ∧ (execute_bash_command (some 5)
          ⟨⟨[("A", "1")], "/data/project"⟩, [("f", "x")], [("tmpfile", "y")]⟩ (.sleep 6)
        = ((timeoutMessage, none), ⟨⟨[("A", "1")], "/data/project"⟩, [("f", "x")], []⟩)
       ∧ (execute_bash_command (some 5)
            (execute_bash_command (some 5)
              ⟨⟨[("A", "1")], "/data/project"⟩, [("f", "x")], [("tmpfile", "y")]⟩ (.sleep 6)).2
            (.sleep 3)).1
          = ((runBashCmd ⟨[("A", "1")], "/data/project"⟩ [("f", "x")] [] (.sleep 3)).1,
             some (runBashCmd ⟨[("A", "1")], "/data/project"⟩ [("f", "x")] []
                (.sleep 3)).2.1)
       ∧ (∀ f content, assocGet [("f", "x")] f = some content →
            (execute_bash_command (some 5)
              (execute_bash_command (some 5)
                ⟨⟨[("A", "1")], "/data/project"⟩, [("f", "x")], [("tmpfile", "y")]⟩
                (.sleep 6)).2
              (.readMount f)).1 = (content, some 0))) :=
  ⟨⟨by decide, by decide⟩,
   C3_timeout_recovery 5 ⟨⟨[("A", "1")], "/data/project"⟩, [("f", "x")], [("tmpfile", "y")]⟩
     (.sleep 6) (.sleep 3) (by decide) (by decide)⟩

/-- C4: in every reachable state of the serialized session, at most one of
the concurrently issued commands executes against the container (mutual
exclusion through the session mutex), and every finished command
completed with exit code 0 and its own completion output — no command
ever observed another command's lock file. -/
theorem C4_commands_serialized_and_race_free {n : Nat} (s : LockSys n)
    (h : LockReachable s) :
    (∀ i j : Fin n, s.executing i → s.executing j → i = j)
    ∧ (∀ i : Fin n, ∀ k : Nat, ∀ out : String,
        s.tasks i = .finished k out → k = 0 ∧ out = cmdDoneOutput i.val) := by
  obtain ⟨inv1, _, inv3⟩ := lockInv_reachable h
  refine ⟨?_, inv3⟩
  intro i j hi hj
  have h1 := inv1 i hi
  have h2 := inv1 j hj
  rw [h1] at h2
  injection h2

/-- C4 witness: the theorem applied to the initial state of a session
with two concurrently issued commands. -/
theorem C4_commands_serialized_witness :
    LockReachable (LockSys.init 2)
    ∧ ((∀ i j : Fin 2,
          (LockSys.init 2).executing i → (LockSys.init 2).executing j → i = j)
        ∧ (∀ i : Fin 2, ∀ k : Nat, ∀ out : String,
            (LockSys.init 2).tasks i = .finished k out
              → k = 0 ∧ out = cmdDoneOutput i.val)) :=
  ⟨LockReachable.init,
   C4_commands_serialized_and_race_free (LockSys.init 2) LockReachable.init⟩

/-- C5 counterexample: on a download failure `run_opensource` builds the
`DOWNLOAD_FAILURE` record but returns it to a caller that discards every
return value, so no JSON result record is emitted for that job — the
claim's "on every branch including download failure" fails. -/
theorem C5_counterexample_download_failure_writes_no_record :
    run_opensource
        ⟨"owner/repo", "deadbeef", "python", none, "", false, false,
          .completed 0 "", 3600, none, 0, 7⟩
      = ⟨[("exit_code", .jInt (-666)), ("execution_time", .jInt 0),
          ("repo_name", .jStr "owner/repo"), ("commit_sha", .jStr "deadbeef"),
          ("container_logs", .jNull), ("issues_count", .jInt 0)],
         none, false, 0, false, false, none⟩ := by
  decide

/-- C5 (amended): a result record file is written for a job exactly when
its repository downloads and its language is supported; under the batch
scheduler every submitted job occupies exactly one slot whose trace is a
function of that job's own inputs alone (so one failing job cannot cancel
or corrupt a sibling), and the only exception a job can raise is the
unsupported-language `ValueError`, which `gather(return_exceptions=True)`
absorbs. -/
theorem C5_one_record_per_container_phase_job (envs : List JobEnv) (e : JobEnv) (i : Nat) :
    (run_batch_async envs).length = envs.length
    ∧ (run_batch_async envs)[i]? = (envs[i]?).map run_opensource
    ∧ ((run_opensource e).recordWritten.isSome = true
        ↔ (e.downloadOk = true ∧ supportedLanguages.contains e.language = true))
    ∧ ((run_opensource e).raisedError = none
        ∨ (run_opensource e).raisedError = some ("Unsupported language: " ++ e.language)) := by
  refine ⟨by simp [run_batch_async], by simp [run_batch_async], ?_, ?_⟩
  · cases hd : e.downloadOk
    · simp [run_opensource, hd]
    · cases hl : supportedLanguages.contains e.language
      · have hm : ¬ e.language ∈ supportedLanguages := by simpa using hl
        simp [run_opensource, hd, hl, hm]
      · have hm : e.language ∈ supportedLanguages := by simpa using hl
        simp [run_opensource, hd, hl, hm]
  · cases hd : e.downloadOk
    · left; simp [run_opensource, hd]
    · cases hl : supportedLanguages.contains e.language
      · have hm : ¬ e.language ∈ supportedLanguages := by simpa using hl
        right; simp [run_opensource, hd, hl, hm]
      · have hm : e.language ∈ supportedLanguages := by simpa using hl
        left; simp [run_opensource, hd, hl, hm]

/-- C6: failure classification follows the fixed exit-code taxonomy: a
download failure yields `DOWNLOAD_FAILURE = -666` with no container
created; a timeout yields `TIMEOUT = -127` with synthetic container
logs; a Docker engine error yields `DOCKER_FAILURE = -888`; any other
exception yields `UNKNOWN_FAILURE = -999`; a user script completing
yields its own status code, and on status 0 with a parsed result file
`issues_count` comes from that file; the negative sentinels are pairwise
distinct and negative, hence disjoint from real 0-255 process codes. -/
theorem C6_exit_code_taxonomy (e : JobEnv) (sc : Int) (logs msg : String)
    (kvs : List (String × JVal)) (v : JVal) :
    (e.downloadOk = false →
      dictGet (run_opensource e).record "exit_code" = some (.jInt downloadFailureExitCode)
      ∧ (run_opensource e).containerCreated = false
      ∧ (run_opensource e).containerDeletes = 0)
    ∧ (e.downloadOk = true → supportedLanguages.contains e.language = true →
        (e.outcome = .timedOut →
          dictGet (run_opensource e).record "exit_code" = some (.jInt timeoutExitCode)
          ∧ dictGet (run_opensource e).record "container_logs"
              = some (.jStr (timeoutLogs e.containerTimeout)))
        ∧ (e.outcome = .dockerError msg →
            dictGet (run_opensource e).record "exit_code"
              = some (.jInt dockerFailureExitCode))
        ∧ (e.outcome = .unexpectedError msg →
            dictGet (run_opensource e).record "exit_code"
              = some (.jInt unknownFailureExitCode))
        ∧ (e.outcome = .completed sc logs → e.resultsFile = none →
            dictGet (run_opensource e).record "exit_code" = some (.jInt sc))
        ∧ (e.outcome = .completed 0 logs → e.resultsFile = some kvs →
            e.language = "python" → lastVal kvs "exit_code" = none →
            lastVal kvs "issues_count" = some v →
            dictGet (run_opensource e).record "exit_code" = some (.jInt 0)
            ∧ dictGet (run_opensource e).record "issues_count" = some v))
    ∧ taxonomySentinels.Pairwise (· ≠ ·)
    ∧ (∀ code ∈ taxonomySentinels, code < 0) := by
  have hxt : ("execution_time" : String) ≠ "exit_code" := by decide
  have hcl : ("container_logs" : String) ≠ "exit_code" := by decide
  have hclt : ("execution_time" : String) ≠ "container_logs" := by decide
  have hic : ("issues_count" : String) ≠ "exit_code" := by decide
  have hxi : ("execution_time" : String) ≠ "issues_count" := by decide
  have hci : ("container_logs" : String) ≠ "issues_count" := by decide
  refine ⟨?_, ?_, by decide, by decide⟩
  · intro hd
    refine ⟨?_, by simp [run_opensource, hd], by simp [run_opensource, hd]⟩
    simp only [run_opensource, hd]
    simp [dictGet_dictSet_self]
  · intro hd hl
    have hm : e.language ∈ supportedLanguages := by simpa using hl
    have hmain : (run_opensource e).record
        = dictSet (recordAfterContainerPhase e) "execution_time" (.jInt e.elapsed) := by
      simp [run_opensource, hd, hl, hm]
    refine ⟨?_, ?_, ?_, ?_, ?_⟩
    · intro ho
      rw [hmain, dictGet_dictSet_ne _ _ _ _ hxt, dictGet_dictSet_ne _ _ _ _ hclt]
      simp only [recordAfterContainerPhase, ho]
      rw [dictGet_dictSet_ne _ _ _ _ hcl, dictGet_dictSet_self]
      exact ⟨rfl, by rw [dictGet_dictSet_self]⟩
    · intro ho
      rw [hmain, dictGet_dictSet_ne _ _ _ _ hxt]
      simp only [recordAfterContainerPhase, ho]
      rw [dictGet_dictSet_ne _ _ _ _ hcl, dictGet_dictSet_self]
    · intro ho
      rw [hmain, dictGet_dictSet_ne _ _ _ _ hxt]
      simp only [recordAfterContainerPhase, ho]
      rw [dictGet_dictSet_ne _ _ _ _ hcl, dictGet_dictSet_self]
    · intro ho hres
      rw [hmain, dictGet_dictSet_ne _ _ _ _ hxt]
      simp only [recordAfterContainerPhase, ho, hres]
      rw [dictGet_dictSet_ne _ _ _ _ hcl, dictGet_dictSet_self]
    · intro ho hres hlang hex his
      have hnr : ¬ (e.language = "repo2run") := by rw [hlang]; decide
      constructor
      · rw [hmain, dictGet_dictSet_ne _ _ _ _ hxt]
        simp only [recordAfterContainerPhase, ho, hres, if_neg hnr]
        rw [dictGet_mergeResults, hex]
        show dictGet _ "exit_code" = _
        rw [dictGet_dictSet_ne _ _ _ _ hcl, dictGet_dictSet_self]
      · rw [hmain, dictGet_dictSet_ne _ _ _ _ hxi]
        simp only [recordAfterContainerPhase, ho, hres, if_neg hnr]
        rw [dictGet_mergeResults, his]
        rfl

/-- C6 witness: the taxonomy theorem applied to four concrete jobs — a
download failure, a timeout, a Docker engine error, and a user script
completing with status 0 whose result file reports three issues. -/
theorem C6_exit_code_taxonomy_witness :
    (dictGet (run_opensource ⟨"o/r", "s", "python", none, "", false, false,
          .completed 0 "", 3600, none, 0, 7⟩).record "exit_code"
        = some (.jInt downloadFailureExitCode)
      ∧ (run_opensource ⟨"o/r", "s", "python", none, "", false, false,
          .completed 0 "", 3600, none, 0, 7⟩).containerCreated = false
      ∧ (run_opensource ⟨"o/r", "s", "python", none, "", false, false,
          .completed 0 "", 3600, none, 0, 7⟩).containerDeletes = 0)
    ∧ (dictGet (run_opensource ⟨"o/r", "s", "python", none, "", true, false,
          .timedOut, 3600, none, 0, 7⟩).record "exit_code"
        = some (.jInt timeoutExitCode)
      ∧ dictGet (run_opensource ⟨"o/r", "s", "python", none, "", true, false,
          .timedOut, 3600, none, 0, 7⟩).record "container_logs"
        = some (.jStr (timeoutLogs 3600)))
    ∧ dictGet (run_opensource ⟨"o/r", "s", "python", none, "", true, false,
          .dockerError "boom", 3600, none, 0, 7⟩).record "exit_code"
        = some (.jInt dockerFailureExitCode)
    ∧ (dictGet (run_opensource ⟨"o/r", "s", "python", none, "", true, true,
          .completed 0 "lg", 3600, some [("issues_count", .jInt 3)], 0, 7⟩).record
          "exit_code" = some (.jInt 0)
      ∧ dictGet (run_opensource ⟨"o/r", "s", "python", none, "", true, true,
          .completed 0 "lg", 3600, some [("issues_count", .jInt 3)], 0, 7⟩).record
          "issues_count" = some (.jInt 3)) :=
  ⟨(C6_exit_code_taxonomy ⟨"o/r", "s", "python", none, "", false, false,
      .completed 0 "", 3600, none, 0, 7⟩ 0 "" "" [] .jNull).1 rfl,
   ((C6_exit_code_taxonomy ⟨"o/r", "s", "python", none, "", true, false,
      .timedOut, 3600, none, 0, 7⟩ 0 "" "" [] .jNull).2.1 rfl (by decide)).1 rfl,
   ((C6_exit_code_taxonomy ⟨"o/r", "s", "python", none, "", true, false,
      .dockerError "boom", 3600, none, 0, 7⟩ 0 "" "boom" [] .jNull).2.1 rfl
      (by decide)).2.1 rfl,
   ((C6_exit_code_taxonomy ⟨"o/r", "s", "python", none, "", true, true,
      .completed 0 "lg", 3600, some [("issues_count", .jInt 3)], 0, 7⟩ 0 "lg" ""
      [("issues_count", .jInt 3)] (.jInt 3)).2.1 rfl (by decide)).2.2.2.2
      rfl rfl rfl (by decide) (by decide)⟩

/-- C7 counterexample: the result file name and the resume filter use
only the repository name — jobs for the same repository at two different
revisions share one result file, and a job for `("owner/repo", "sha2")`
is skipped although the only existing record came from revision
`"sha1"`, refuting the `(repository, revision)` idempotency key. -/
theorem C7_counterexample_revision_ignored :
    resultFileNameForJob "owner/repo" "sha1" = resultFileNameForJob "owner/repo" "sha2"
    ∧ skipJob [resultFileNameForJob "owner/repo" "sha1"] "owner/repo" = true
    ∧ remainingJobs [resultFileNameForJob "owner/repo" "sha1"]
        [("owner/repo", "sha2")] = [] := by
  refine ⟨rfl, by decide, by decide⟩

/-- C7 (amended): the idempotency key for result files and resume/skip
is the repository name alone: the result file name is the same for every
revision; with the rewrite flag off a job survives the resume filter iff
its repository name matches no existing result file, so two jobs
differing only in revision are skipped or kept together; with the
rewrite flag on, all prior results are purged and nothing is skipped. -/
theorem C7_resume_key_is_repository_name (files : List String)
    (jobs : List (String × String)) (r s1 s2 : String) :
    resultFileNameForJob r s1 = resultFileNameForJob r s2
    ∧ (skipJob files r = true ↔ r ∈ files.map processedRepoName)
    ∧ ((r, s1) ∈ remainingJobs files jobs ↔ ((r, s1) ∈ jobs ∧ skipJob files r = false))
    ∧ (((r, s1) ∈ jobs ↔ (r, s2) ∈ jobs) →
        ((r, s1) ∈ remainingJobs files jobs ↔ (r, s2) ∈ remainingJobs files jobs))
    ∧ remainingJobs [] jobs = jobs := by
  refine ⟨rfl, by simp [skipJob], ?_, ?_, ?_⟩
  · simp [remainingJobs, List.mem_filter]
  · intro hmem
    simp [remainingJobs, List.mem_filter, hmem]
  · simp [remainingJobs, skipJob]

/-- C8 counterexample: a job whose language is unsupported exits
`run_opensource` through the `ValueError` raised before the try-block:
its checkout is not released, no execution time is recorded and no
record is written, refuting the claim's "on every exit path ... or any
unexpected exception". -/
theorem C8_counterexample_unsupported_language_skips_cleanup :
    run_opensource
        ⟨"owner/repo", "sha", "go", none, "", true, false,
          .completed 0 "", 3600, none, 0, 7⟩
      = ⟨initRecord "owner/repo" "sha", none, false, 0, false, false,
         some "Unsupported language: go"⟩ := by
  decide

/-- C8 (amended): on every exit path through the container phase —
completion, timeout, Docker engine error, or unexpected exception inside
the try-block — the runner deletes the container exactly once when one
was created (and zero times when creation never happened), releases the
repository checkout, records the wall-clock execution time into the
record, and raises nothing; paths that exit before the try-block (the
download-failure return and the unsupported-language exception) skip the
checkout release and the time recording. -/
theorem C8_cleanup_on_every_container_phase_path (e : JobEnv)
    (hd : e.downloadOk = true) (hl : supportedLanguages.contains e.language = true) :
    (run_opensource e).containerDeletes = (if containerWasCreated e then 1 else 0)
    ∧ (run_opensource e).repoCleared = true
    ∧ (run_opensource e).timeRecorded = true
    ∧ dictGet (run_opensource e).record "execution_time" = some (.jInt e.elapsed)
    ∧ (run_opensource e).raisedError = none := by
  have hm : e.language ∈ supportedLanguages := by simpa using hl
  have htr : run_opensource e
      = { record := dictSet (recordAfterContainerPhase e) "execution_time" (.jInt e.elapsed),
          recordWritten := some (resultFileNameForJob e.repoName e.commitSha),
          containerCreated := containerWasCreated e,
          containerDeletes := if containerWasCreated e then 1 else 0,
          repoCleared := true, timeRecorded := true, raisedError := none } := by
    simp [run_opensource, hd, hl, hm]
  rw [htr]
  exact ⟨rfl, rfl, rfl, dictGet_dictSet_self _ _ _, rfl⟩

/-- C8 witness: the cleanup theorem applied to a concrete timed-out job
whose container was created before the timeout. -/
theorem C8_cleanup_witness :
    (run_opensource ⟨"o/r", "s", "python", none, "", true, true,
        .timedOut, 3600, none, 0, 11⟩).containerDeletes
      = (if containerWasCreated ⟨"o/r", "s", "python", none, "", true, true,
            .timedOut, 3600, none, 0, 11⟩ then 1 else 0)
    ∧ (run_opensource ⟨"o/r", "s", "python", none, "", true, true,
        .timedOut, 3600, none, 0, 11⟩).repoCleared = true
    ∧ (run_opensource ⟨"o/r", "s", "python", none, "", true, true,
        .timedOut, 3600, none, 0, 11⟩).timeRecorded = true
    ∧ dictGet (run_opensource ⟨"o/r", "s", "python", none, "", true, true,
        .timedOut, 3600, none, 0, 11⟩).record "execution_time" = some (.jInt 11)
    ∧ (run_opensource ⟨"o/r", "s", "python", none, "", true, true,
        .timedOut, 3600, none, 0, 11⟩).raisedError = none :=
  C8_cleanup_on_every_container_phase_path
    ⟨"o/r", "s", "python", none, "", true, true, .timedOut, 3600, none, 0, 11⟩
    rfl (by decide)

/-- C9 counterexample: the merge loop copies every top-level key of the
in-container result file into the record, so a result file containing
an `exit_code` key reassigns `BuildResult.exit_code` after the run phase
set it — here a script that completed with status 0 ends up recorded
with exit code 42, refuting "for every possible content of the
in-container result file". -/
theorem C9_counterexample_merge_reassigns_exit_code :
    dictGet (run_opensource ⟨"owner/repo", "sha", "python", none, "", true, true,
        .completed 0 "logs", 3600, some [("exit_code", .jInt 42)], 0, 7⟩).record
      "exit_code" = some (.jInt 42)
    ∧ dictGet (run_opensource ⟨"owner/repo", "sha", "python", none, "", true, true,
        .completed 0 "logs", 3600, some [("exit_code", .jInt 42)], 0, 7⟩).record
      "exit_code" ≠ some (.jInt 0) := by
  refine ⟨by decide, by decide⟩

/-- C9 (amended): on the completion branch the run phase assigns
`exit_code` the user script's own status code, and no later step
reassigns it — including the best-effort merge — *unless* the in-container
result file carries a top-level `exit_code` key, in which case the merge
overwrites it with the file's (last) value. -/
theorem C9_exit_code_assigned_by_run_phase_unless_merged (e : JobEnv) (sc : Int)
    (logs : String) (kvs : List (String × JVal)) (v : JVal)
    (hd : e.downloadOk = true) (hl : supportedLanguages.contains e.language = true)
    (ho : e.outcome = .completed sc logs) :
    (e.resultsFile = none →
      dictGet (run_opensource e).record "exit_code" = some (.jInt sc))
    ∧ (e.resultsFile = some kvs → lastVal kvs "exit_code" = none →
      dictGet (run_opensource e).record "exit_code" = some (.jInt sc))
    ∧ (e.resultsFile = some kvs → lastVal kvs "exit_code" = some v →
      dictGet (run_opensource e).record "exit_code" = some v) := by
  have hxt : ("execution_time" : String) ≠ "exit_code" := by decide
  have hcl : ("container_logs" : String) ≠ "exit_code" := by decide
  have hic : ("issues_count" : String) ≠ "exit_code" := by decide
  have hm : e.language ∈ supportedLanguages := by simpa using hl
  have hmain : (run_opensource e).record
      = dictSet (recordAfterContainerPhase e) "execution_time" (.jInt e.elapsed) := by
    simp [run_opensource, hd, hl, hm]
  have hbase : dictGet (dictSet (dictSet (initRecord e.repoName e.commitSha)
      "exit_code" (.jInt sc)) "container_logs" (.jStr logs)) "exit_code"
      = some (.jInt sc) := by
    rw [dictGet_dictSet_ne _ _ _ _ hcl, dictGet_dictSet_self]
  refine ⟨?_, ?_, ?_⟩
  · intro hres
    rw [hmain, dictGet_dictSet_ne _ _ _ _ hxt]
    simp only [recordAfterContainerPhase, ho, hres]
    exact hbase
  · intro hres hex
    rw [hmain, dictGet_dictSet_ne _ _ _ _ hxt]
    simp only [recordAfterContainerPhase, ho, hres]
    by_cases hr2 : e.language = "repo2run"
    · rw [if_pos hr2, dictGet_dictSet_ne _ _ _ _ hic, dictGet_mergeResults, hex]
      exact hbase
    · rw [if_neg hr2, dictGet_mergeResults, hex]
      exact hbase
  · intro hres hex
    rw [hmain, dictGet_dictSet_ne _ _ _ _ hxt]
    simp only [recordAfterContainerPhase, ho, hres]
    by_cases hr2 : e.language = "repo2run"
    · rw [if_pos hr2, dictGet_dictSet_ne _ _ _ _ hic, dictGet_mergeResults, hex]
      rfl
    · rw [if_neg hr2, dictGet_mergeResults, hex]
      rfl

/-- C9 witness: the assignment theorem applied to three concrete
completed jobs — no result file, a result file without an `exit_code`
key, and a result file whose `exit_code` key overwrites the status. -/
theorem C9_exit_code_assignment_witness :
    dictGet (run_opensource ⟨"o/r", "s", "python", none, "", true, true,
        .completed 5 "lg", 3600, none, 0, 7⟩).record "exit_code" = some (.jInt 5)
    ∧ dictGet (run_opensource ⟨"o/r", "s", "python", none, "", true, true,
        .completed 5 "lg", 3600, some [("issues_count", .jInt 3)], 0, 7⟩).record
      "exit_code" = some (.jInt 5)
    ∧ dictGet (run_opensource ⟨"o/r", "s", "python", none, "", true, true,
        .completed 5 "lg", 3600, some [("exit_code", .jInt 42)], 0, 7⟩).record
      "exit_code" = some (.jInt 42) :=
  ⟨(C9_exit_code_assigned_by_run_phase_unless_merged
      ⟨"o/r", "s", "python", none, "", true, true, .completed 5 "lg", 3600, none, 0, 7⟩
      5 "lg" [] .jNull rfl (by decide) rfl).1 rfl,
   (C9_exit_code_assigned_by_run_phase_unless_merged
      ⟨"o/r", "s", "python", none, "", true, true, .completed 5 "lg", 3600,
        some [("issues_count", .jInt 3)], 0, 7⟩
      5 "lg" [("issues_count", .jInt 3)] .jNull rfl (by decide) rfl).2.1 rfl (by decide),
   (C9_exit_code_assigned_by_run_phase_unless_merged
      ⟨"o/r", "s", "python", none, "", true, true, .completed 5 "lg", 3600,
        some [("exit_code", .jInt 42)], 0, 7⟩
      5 "lg" [("exit_code", .jInt 42)] (.jInt 42) rfl (by decide) rfl).2.2 rfl
      (by decide)⟩

end EnvBench
